import Mathlib

/-!
Verification development for the EveeLogPortal transport-brokerage server.

The definitions below are a shallow embedding of the storage layer
(`server/storage.ts` of the repository, over the drizzle schema of
`shared/schema.ts`): tables become lists of records, `db.transaction`
blocks become pure functions from a `DB` state to a result paired with
the next `DB` state, and the JavaScript float arithmetic used for the
cancellation fee (`(parseFloat(price) * 0.1).toFixed(2)`) is embedded
exactly, with IEEE-754 binary64 values represented as the rationals they
denote.
-/

namespace EveeLog

/-! ## JavaScript numerics, embedded exactly

A binary64 double is represented by the rational number it denotes.
`roundDouble q` is the double nearest to the rational `q` (round half to
even, 53-bit significand); this is what `parseFloat` does to a decimal
literal and what each arithmetic operation does to its exact result.
Overflow and subnormals are irrelevant in the price range of this
application and are not modelled.
-/

/-- A nonnegative binary64 double, represented exactly as the dyadic
number `m * 2 ^ e`. -/
structure Dbl where
  m : ℕ
  e : ℤ
  deriving DecidableEq

/-- Round the fraction `n / d` (with `d > 0`) to the nearest natural
number, ties to even. -/
def roundHalfEvenNat (n d : ℕ) : ℕ :=
  let q := n / d
  let r := n % d
  if 2 * r < d then q else if d < 2 * r then q + 1 else if q % 2 = 0 then q else q + 1

/-- The smallest `k` with `m < 2 ^ (53 + k)`, i.e. how many low bits of
`m` exceed a 53-bit significand; fuel-bounded. -/
def excessBits : ℕ → ℕ → ℕ → ℕ
  | 0, _, k => k
  | fuel + 1, m, k => if m < 2 ^ (53 + k) then k else excessBits fuel m (k + 1)

/-- Round the exact dyadic `m * 2 ^ e` to 53 significant bits, ties to
even: the IEEE-754 binary64 rounding of an exact product. -/
def roundDyadic (m : ℕ) (e : ℤ) : Dbl :=
  let k := excessBits 200 m 0
  if k = 0 then ⟨m, e⟩ else ⟨roundHalfEvenNat m (2 ^ k), e + k⟩

/-- The smallest `j` with `2 ^ 52 * b ≤ a * 2 ^ j`; fuel-bounded. -/
def scaleBits : ℕ → ℕ → ℕ → ℕ → ℕ
  | 0, _, _, j => j
  | fuel + 1, a, b, j => if 2 ^ 52 * b ≤ a * 2 ^ j then j else scaleBits fuel a b (j + 1)

/-- The binary64 double nearest to the fraction `a / b` (round half to
even, 53-bit significand): what ECMAScript `parseFloat` produces for a
decimal numeral denoting `a / b`.  Overflow and subnormals are outside
the price range of this application and are not modelled. -/
def ratToDbl (a b : ℕ) : Dbl :=
  if a = 0 then ⟨0, 0⟩
  else
    let j := scaleBits 200 a b 0
    roundDyadic (roundHalfEvenNat (a * 2 ^ j) b) (-(j : ℤ))

/-- IEEE-754 binary64 multiplication: the correctly rounded product. -/
def mulDbl (x y : Dbl) : Dbl := roundDyadic (x.m * y.m) (x.e + y.e)

/-- ECMAScript `toFixed(2)` applied to a nonnegative double: the number
of cents nearest to the value, ties picking the larger count. -/
def toFixed2 (x : Dbl) : ℕ :=
  if 0 ≤ x.e then 100 * x.m * 2 ^ x.e.toNat
  else
    let E := (-x.e).toNat
    (200 * x.m + 2 ^ E) / 2 ^ (E + 1)

/-- Digits of a string fragment as a natural number; `none` when the
fragment is empty or holds a non-digit. -/
def digitsVal : List Char → Option ℕ
  | [] => none
  | cs => cs.foldl
      (fun acc c =>
        match acc with
        | none => none
        | some n => if '0' ≤ c && c ≤ '9' then some (10 * n + (c.toNat - '0'.toNat)) else none)
      (some 0)

/-- Split a character list at the first `'.'`. -/
def splitDot : List Char → List Char × Option (List Char)
  | [] => ([], none)
  | c :: cs =>
    if c == '.' then ([], some cs)
    else
      let r := splitDot cs
      (c :: r.1, r.2)

/-- Parse a plain decimal string (`"123"`, `"123.45"`) to the exact
fraction `(numerator, denominator)` it denotes. -/
def parseDec (s : String) : Option (ℕ × ℕ) :=
  match splitDot s.toList with
  | (i, none) => (digitsVal i).map (fun n => (n, 1))
  | (i, some f) =>
    match digitsVal i, digitsVal f with
    | some iv, some fv => some (iv * 10 ^ f.length + fv, 10 ^ f.length)
    | _, _ => none

/-- Render a cent count as a two-decimal string, e.g. `1000 ↦ "10.00"`. -/
def centsToString (n : ℕ) : String :=
  toString (n / 100) ++ "." ++ (if n % 100 < 10 then "0" else "") ++ toString (n % 100)

/-- The amount string computed by the source for the cancellation fee:
`(parseFloat(order.price) * 0.1).toFixed(2)`.  `parseFloat` maps the
decimal string to the nearest double, the literal `0.1` is itself the
nearest double to 1/10, the product is correctly rounded, and
`toFixed(2)` renders the result. -/
def cancellationFeeAmount (price : String) : String :=
  match parseDec price with
  | none => "NaN"
  | some (a, b) => centsToString (toFixed2 (mulDbl (ratToDbl a b) (ratToDbl 1 10)))

/-- Formalised from the specification's words, for comparison with the
source computation: 10% of the price computed on the decimal
representation and rounded to exactly 2 fractional digits (half up; on
the disputed inputs half up and half to even agree). The price string
must denote a whole number of cents. -/
def specTenPercentRounded (price : String) : Option String :=
  match parseDec price with
  | none => none
  | some (a, b) =>
    if (a * 100) % b = 0 then some (centsToString ((a * 100 / b + 5) / 10)) else none

/-- JavaScript truthiness of an optional string argument: `undefined`
and the empty string are falsy. -/
def jsTruthy : Option String → Bool
  | some s => !(s == "")
  | none => false

/-! ## Data model (drizzle schema, `shared/schema.ts`)

Rows keep the source's column names.  Status and type columns are
strings, as in the TypeScript source; the legal enum values are listed
separately (`orderStatusValues` mirrors `orderStatusEnum`).  Generated
uuids are modelled by a fresh-id counter in the store, timestamps by
naturals supplied as a `now` argument. -/

/-- The `order_status` pgEnum of the schema. -/
def orderStatusValues : List String :=
  ["open", "assigned", "in_progress", "delivered", "completed", "cancelled"]

/-- A row of the `orders` table. -/
structure Order where
  id : ℕ
  pickupLocation : String
  deliveryLocation : String
  vehicleBrand : String
  vehicleModel : String
  vehicleYear : Option ℤ
  pickupDate : ℕ
  deliveryDate : Option ℕ
  pickupTimeFrom : Option String
  pickupTimeTo : Option String
  deliveryTimeFrom : Option String
  deliveryTimeTo : Option String
  price : String
  distance : Option ℤ
  notes : Option String
  status : String
  assignedDriverId : Option String
  createdById : String
  fromAuction : String
  createdAt : ℕ
  updatedAt : ℕ
  deriving DecidableEq

/-- A row of the `auctions` table. -/
structure Auction where
  id : ℕ
  pickupLocation : String
  deliveryLocation : String
  vehicleBrand : String
  vehicleModel : String
  vehicleYear : Option ℤ
  pickupDate : ℕ
  deliveryDate : Option ℕ
  pickupTimeFrom : Option String
  pickupTimeTo : Option String
  deliveryTimeFrom : Option String
  deliveryTimeTo : Option String
  instantPrice : String
  distance : Option ℤ
  notes : Option String
  status : String
  purchasedById : Option String
  purchasedAt : Option ℕ
  createdById : String
  createdAt : ℕ
  updatedAt : ℕ
  deriving DecidableEq

/-- A row of the `billings` table. -/
structure Billing where
  id : ℕ
  userId : String
  orderId : Option ℕ
  auctionId : Option ℕ
  amount : String
  originalAmount : Option String
  type : String
  status : String
  description : String
  adminNotes : Option String
  approvedBy : Option String
  approvedAt : Option ℕ
  createdById : String
  createdAt : ℕ
  updatedAt : ℕ
  deriving DecidableEq

/-- The relational store: the three tables the claims touch, plus the
fresh-id source standing in for `gen_random_uuid()`. -/
structure DB where
  orders : List Order
  auctions : List Auction
  billings : List Billing
  nextId : ℕ
  deriving DecidableEq

/-! ## Storage operations (`server/storage.ts`, class `DatabaseStorage`)

A drizzle `update ... where p ... returning()` is modelled by
`updateWhere`: the first component is the new table, the second the
updated rows in table order (`returning()`); `const [x] = rows` in the
source is `rows.head?` here. -/

/-- `UPDATE ... SET f ... WHERE p ... RETURNING *` over a list table. -/
def updateWhere (p : α → Bool) (f : α → α) (l : List α) : List α × List α :=
  (l.map (fun x => if p x then f x else x), (l.filter p).map f)

/-- The cancellation-fee billing row inserted by `updateOrderStatus`
(all column values as in the source insert; unset columns take their
schema defaults). -/
def cancellationBilling (o : Order) (driverId : String) (freshId now : ℕ) : Billing :=
  { id := freshId
    userId := driverId
    orderId := some o.id
    auctionId := none
    amount := cancellationFeeAmount o.price
    originalAmount := none
    type := "cancellation_fee"
    status := "pending"
    description := "Storno-Gebühr für Auktionskauf: " ++ o.vehicleBrand ++ " "
      ++ o.vehicleModel ++ " (10% von €" ++ o.price ++ ")"
    adminNotes := none
    approvedBy := none
    approvedAt := none
    createdById := o.createdById
    createdAt := now
    updatedAt := now }

/-- `DatabaseStorage.updateOrderStatus(id, status, driverId?)`: read the
order; if absent return `undefined`; write the new status
unconditionally; if the new status is `'cancelled'`, the order came
from an auction, and a (truthy) driver id was supplied, insert the 10%
cancellation-fee billing row; return the updated order. -/
def updateOrderStatus (db : DB) (id : ℕ) (status : String) (driverId : Option String)
    (now : ℕ) : Option Order × DB :=
  match db.orders.find? (fun o => o.id == id) with
  | none => (none, db)
  | some order =>
    let u := updateWhere (fun o => o.id == id)
      (fun o => { o with status := status, updatedAt := now }) db.orders
    let db1 : DB :=
      if status == "cancelled" && order.fromAuction == "true" && jsTruthy driverId then
        { db with orders := u.1
                  billings := db.billings
                    ++ [cancellationBilling order (driverId.getD "") db.nextId now]
                  nextId := db.nextId + 1 }
      else { db with orders := u.1 }
    (u.2.head?, db1)

/-- `DatabaseStorage.acceptOrder(orderId, driverId)`: set status
`'in_progress'` on the row whose id and assigned driver both match. -/
def acceptOrder (db : DB) (orderId : ℕ) (driverId : String) (now : ℕ) :
    Option Order × DB :=
  let u := updateWhere (fun o => o.id == orderId && o.assignedDriverId == some driverId)
    (fun o => { o with status := "in_progress", updatedAt := now }) db.orders
  (u.2.head?, { db with orders := u.1 })

/-- `DatabaseStorage.rejectOrder(orderId, driverId)`: clear the driver
and return the row whose id and assigned driver both match to
`'open'`. -/
def rejectOrder (db : DB) (orderId : ℕ) (driverId : String) (now : ℕ) :
    Option Order × DB :=
  let u := updateWhere (fun o => o.id == orderId && o.assignedDriverId == some driverId)
    (fun o => { o with assignedDriverId := none, status := "open", updatedAt := now }) db.orders
  (u.2.head?, { db with orders := u.1 })

/-- The order row inserted by a successful auction purchase. -/
def purchasedOrder (a : Auction) (buyerId : String) (freshId now : ℕ) : Order :=
  { id := freshId
    pickupLocation := a.pickupLocation
    deliveryLocation := a.deliveryLocation
    vehicleBrand := a.vehicleBrand
    vehicleModel := a.vehicleModel
    vehicleYear := a.vehicleYear
    pickupDate := a.pickupDate
    deliveryDate := a.deliveryDate
    pickupTimeFrom := a.pickupTimeFrom
    pickupTimeTo := a.pickupTimeTo
    deliveryTimeFrom := a.deliveryTimeFrom
    deliveryTimeTo := a.deliveryTimeTo
    price := a.instantPrice
    distance := a.distance
    notes := a.notes
    status := "in_progress"
    assignedDriverId := some buyerId
    createdById := a.createdById
    fromAuction := "true"
    createdAt := now
    updatedAt := now }

/-- The billing row inserted by a successful auction purchase. -/
def purchaseBilling (a : Auction) (buyerId : String) (orderId freshId now : ℕ) : Billing :=
  { id := freshId
    userId := buyerId
    orderId := some orderId
    auctionId := some a.id
    amount := a.instantPrice
    originalAmount := none
    type := "order_payment"
    status := "pending"
    description := "Auktionskauf: " ++ a.vehicleBrand ++ " " ++ a.vehicleModel
      ++ " von " ++ a.pickupLocation ++ " nach " ++ a.deliveryLocation
    adminNotes := none
    approvedBy := none
    approvedAt := none
    createdById := a.createdById
    createdAt := now
    updatedAt := now }

/-- The `SET` clause of the purchase's conditional update: mark the
auction sold by `buyerId` at `now`. -/
def soldOf (buyerId : String) (now : ℕ) (a : Auction) : Auction :=
  { a with status := "sold", purchasedById := some buyerId,
           purchasedAt := some now, updatedAt := now }

/-- `DatabaseStorage.purchaseAuction(auctionId, buyerId)`: read the
auction; abort when absent or not `'active'`; conditionally update it
to `'sold'` guarded by `status = 'active'`, aborting when zero rows are
affected; then insert the spawned order and its `order_payment` billing
row, and return the updated auction together with the new order. -/
def purchaseAuction (db : DB) (auctionId : ℕ) (buyerId : String) (now : ℕ) :
    Option (Auction × Order) × DB :=
  match db.auctions.find? (fun a => a.id == auctionId) with
  | none => (none, db)
  | some auction =>
    if auction.status != "active" then (none, db)
    else
      let u := updateWhere (fun a => a.id == auctionId && a.status == "active")
        (soldOf buyerId now) db.auctions
      match u.2.head? with
      | none => (none, { db with auctions := u.1 })
      | some updatedAuction =>
        let newOrder := purchasedOrder auction buyerId db.nextId now
        let newBilling := purchaseBilling auction buyerId newOrder.id (db.nextId + 1) now
        (some (updatedAuction, newOrder),
         { db with auctions := u.1
                   orders := db.orders ++ [newOrder]
                   billings := db.billings ++ [newBilling]
                   nextId := db.nextId + 2 })

/-- `DatabaseStorage.getCompletedOrdersForBilling()`: the completed
orders that have no `completion_payment` billing row yet. -/
def getCompletedOrdersForBilling (db : DB) : List Order :=
  (db.orders.filter (fun o => o.status == "completed")).filter
    (fun o => (db.billings.filter
      (fun b => b.orderId == some o.id && b.type == "completion_payment")).isEmpty)

/-- The per-row update applied by `updateBillingStatus`: always writes
`status` and `updatedAt`; writes `adminNotes` only when that argument
is truthy, and `amount` only when `newAmount` is truthy and non-empty
(`if (adminNotes) ...; if (newAmount && newAmount !== '') ...`). -/
def billingUpd (status : String) (adminNotes newAmount : Option String) (now : ℕ)
    (b : Billing) : Billing :=
  let b1 := { b with status := status, updatedAt := now }
  let b2 := if jsTruthy adminNotes then { b1 with adminNotes := adminNotes } else b1
  if jsTruthy newAmount then { b2 with amount := newAmount.getD b2.amount } else b2

/-- `DatabaseStorage.updateBillingStatus(billingId, status, adminNotes?,
newAmount?)`. -/
def updateBillingStatus (db : DB) (billingId : ℕ) (status : String)
    (adminNotes newAmount : Option String) (now : ℕ) : Option Billing × DB :=
  let u := updateWhere (fun b => b.id == billingId)
    (billingUpd status adminNotes newAmount now) db.billings
  (u.2.head?, { db with billings := u.1 })

/-- `DatabaseStorage.updateOrderAfterHandover(orderId, type)`: sets the
status to `'picked_up'` for a pickup handover and `'delivered'` for a
delivery handover. -/
def updateOrderAfterHandover (db : DB) (orderId : ℕ) (handoverType : String) (now : ℕ) :
    Option Order × DB :=
  let newStatus := if handoverType == "pickup" then "picked_up" else "delivered"
  let u := updateWhere (fun o => o.id == orderId)
    (fun o => { o with status := newStatus, updatedAt := now }) db.orders
  (u.2.head?, { db with orders := u.1 })

/-- Number of `cancellation_fee` billing rows charged against order `oid`. -/
def feeCount (db : DB) (oid : ℕ) : ℕ :=
  (db.billings.filter (fun b => b.type == "cancellation_fee" && b.orderId == some oid)).length

/-! ## Concrete store states used as witnesses and failing inputs -/

/-- An active auction listed at `instantPrice = "100.00"` by admin `"A"`. -/
def auctionA : Auction :=
  { id := 1, pickupLocation := "Berlin", deliveryLocation := "Hamburg",
    vehicleBrand := "VW", vehicleModel := "Golf", vehicleYear := some 2020,
    pickupDate := 100, deliveryDate := some 101,
    pickupTimeFrom := some "08:00", pickupTimeTo := some "14:00",
    deliveryTimeFrom := some "09:00", deliveryTimeTo := some "17:00",
    instantPrice := "100.00", distance := some 290, notes := none,
    status := "active", purchasedById := none, purchasedAt := none,
    createdById := "A", createdAt := 50, updatedAt := 50 }

/-- Store holding only `auctionA`. -/
def dbA : DB := { orders := [], auctions := [auctionA], billings := [], nextId := 2 }

/-- `auctionA` after driver `"D"` buys it at time 5. -/
def soldAuctionA : Auction :=
  { auctionA with status := "sold", purchasedById := some "D",
                  purchasedAt := some 5, updatedAt := 5 }

/-- The order spawned by that purchase. -/
def orderFromA : Order := purchasedOrder auctionA "D" 2 5

/-- The store after the purchase of `auctionA` by `"D"` at time 5. -/
def dbASold : DB :=
  { orders := [orderFromA], auctions := [soldAuctionA],
    billings := [purchaseBilling auctionA "D" 2 3 5], nextId := 4 }

/-- An auction-sourced order priced `"100.00"`, assigned to driver `"D"`. -/
def orderFA : Order :=
  { id := 1, pickupLocation := "Berlin", deliveryLocation := "Hamburg",
    vehicleBrand := "VW", vehicleModel := "Golf", vehicleYear := some 2020,
    pickupDate := 100, deliveryDate := some 101,
    pickupTimeFrom := some "08:00", pickupTimeTo := some "14:00",
    deliveryTimeFrom := some "09:00", deliveryTimeTo := some "17:00",
    price := "100.00", distance := some 290, notes := none,
    status := "in_progress", assignedDriverId := some "D",
    createdById := "A", fromAuction := "true", createdAt := 60, updatedAt := 60 }

/-- Store holding only `orderFA`. -/
def dbFA : DB := { orders := [orderFA], auctions := [], billings := [], nextId := 10 }

/-- The same auction-sourced order but priced `"0.35"`. -/
def orderP35 : Order := { orderFA with price := "0.35" }

/-- Store holding only `orderP35`. -/
def dbP35 : DB := { orders := [orderP35], auctions := [], billings := [], nextId := 20 }

/-- A manually created order (`fromAuction = "false"`) in state
`'assigned'` with driver `"D"`. -/
def orderManual : Order := { orderFA with fromAuction := "false", status := "assigned" }

/-- Store holding only `orderManual`. -/
def dbManual : DB := { orders := [orderManual], auctions := [], billings := [], nextId := 30 }

/-- A completed order with no completion billing yet. -/
def orderDone : Order := { orderFA with status := "completed", fromAuction := "false" }

/-- A second completed order, which does have a completion billing. -/
def orderDone2 : Order := { orderDone with id := 2 }

/-- The `completion_payment` billing row for `orderDone2`. -/
def billingDone2 : Billing :=
  { id := 5, userId := "D", orderId := some 2, auctionId := none,
    amount := "50.00", originalAmount := none, type := "completion_payment",
    status := "pending", description := "Vergütung für abgeschlossenen Auftrag",
    adminNotes := none, approvedBy := none, approvedAt := none,
    createdById := "A", createdAt := 70, updatedAt := 70 }

/-- Store with the two completed orders and one completion billing. -/
def dbDone : DB :=
  { orders := [orderDone, orderDone2], auctions := [], billings := [billingDone2], nextId := 40 }

/-- A pending billing row, target of `updateBillingStatus`. -/
def billingB : Billing := { billingDone2 with id := 6, orderId := some 1 }

/-- Store holding only `billingB`. -/
def dbBill : DB := { orders := [], auctions := [], billings := [billingB], nextId := 50 }

/-! ## Helper lemmas about the list-table primitives -/

/-- If `a` is the first row satisfying `q`, and `p` is a refinement of
`q` that `a` satisfies, then `a` is also the first row satisfying `p`:
the row read by `find?` is the row a conditional `UPDATE ... WHERE p`
touches first. -/
theorem head_filter_of_find {α : Type} {q p : α → Bool} {l : List α} {a : α}
    (h : l.find? q = some a) (hsub : ∀ x, p x = true → q x = true) (hpa : p a = true) :
    (l.filter p).head? = some a := by
  induction l with
  | nil => simp at h
  | cons x xs ih =>
    by_cases hq : q x = true
    · rw [List.find?_cons_of_pos _ hq] at h
      have hxa : x = a := by injection h
      subst hxa
      rw [List.filter_cons_of_pos hpa]
      rfl
    · rw [List.find?_cons_of_neg _ hq] at h
      have hpx : ¬ p x = true := fun hp => hq (hsub x hp)
      rw [List.filter_cons_of_neg hpx]
      exact ih h

/-- `find?` after an update that does not change the searched column:
the first matching row is the image of the first matching row. -/
theorem find_map_of_pres {α : Type} {q : α → Bool} {f : α → α} {l : List α} {a : α}
    (h : l.find? q = some a) (hpres : ∀ x, q (f x) = q x) :
    (l.map f).find? q = some (f a) := by
  induction l with
  | nil => simp at h
  | cons x xs ih =>
    by_cases hq : q x = true
    · rw [List.find?_cons_of_pos _ hq] at h
      have hxa : x = a := by injection h
      subst hxa
      rw [List.map_cons, List.find?_cons_of_pos _ (by rw [hpres]; exact hq)]
    · rw [List.find?_cons_of_neg _ hq] at h
      rw [List.map_cons, List.find?_cons_of_neg _ (by rw [hpres]; exact hq)]
      exact ih h

/-- What a successful `purchaseAuction` computes, in closed form: the
read row is `a` (first row with the requested id) and it is active. -/
theorem purchaseAuction_success_eq (db : DB) (aId : ℕ) (buyer : String) (now : ℕ)
    (a : Auction) (hfind : db.auctions.find? (fun x => x.id == aId) = some a)
    (hact : a.status = "active") :
    purchaseAuction db aId buyer now =
      (some (soldOf buyer now a, purchasedOrder a buyer db.nextId now),
       { db with
          auctions := db.auctions.map (fun x =>
            if x.id == aId && x.status == "active" then soldOf buyer now x else x)
          orders := db.orders ++ [purchasedOrder a buyer db.nextId now]
          billings := db.billings ++ [purchaseBilling a buyer db.nextId (db.nextId + 1) now]
          nextId := db.nextId + 2 }) := by
  have hqa := List.find?_some hfind
  have hpa : (a.id == aId && a.status == "active") = true := by
    simp only [Bool.and_eq_true]
    exact ⟨hqa, by simp [hact]⟩
  have hhead :
      (db.auctions.filter (fun x => x.id == aId && x.status == "active")).head? = some a :=
    head_filter_of_find hfind
      (fun x hx => by
        simp only [Bool.and_eq_true] at hx
        exact hx.1)
      hpa
  unfold purchaseAuction updateWhere
  rw [hfind]
  simp only [hact, bne_self_eq_false, List.head?_map, hhead, Option.map_some']
  rfl

/-- What `updateOrderStatus` computes when the order row exists, in
closed form. -/
theorem updateOrderStatus_found_eq (db : DB) (oid : ℕ) (st : String)
    (drv : Option String) (now : ℕ) (o : Order)
    (hfind : db.orders.find? (fun x => x.id == oid) = some o) :
    updateOrderStatus db oid st drv now =
      (some { o with status := st, updatedAt := now },
       if st == "cancelled" && o.fromAuction == "true" && jsTruthy drv then
         { db with
            orders := db.orders.map (fun x =>
              if x.id == oid then { x with status := st, updatedAt := now } else x)
            billings := db.billings ++ [cancellationBilling o (drv.getD "") db.nextId now]
            nextId := db.nextId + 1 }
       else
         { db with orders := db.orders.map (fun x =>
            if x.id == oid then { x with status := st, updatedAt := now } else x) }) := by
  have hqo := List.find?_some hfind
  have hhead :
      (db.orders.filter (fun x => x.id == oid)).head? = some o :=
    head_filter_of_find hfind (fun x hx => hx) hqo
  unfold updateOrderStatus updateWhere
  rw [hfind]
  simp only [List.head?_map, hhead, Option.map_some']

/-- `purchaseAuction` on an absent auction id: no result, no writes. -/
theorem purchaseAuction_absent (db : DB) (aId : ℕ) (buyer : String) (now : ℕ)
    (hfind : db.auctions.find? (fun x => x.id == aId) = none) :
    purchaseAuction db aId buyer now = (none, db) := by
  unfold purchaseAuction
  rw [hfind]

/-- `purchaseAuction` on an auction that is not active: no result, no
writes. -/
theorem purchaseAuction_not_active (db : DB) (aId : ℕ) (buyer : String) (now : ℕ)
    (a : Auction) (hfind : db.auctions.find? (fun x => x.id == aId) = some a)
    (hna : ¬ a.status = "active") :
    purchaseAuction db aId buyer now = (none, db) := by
  unfold purchaseAuction
  rw [hfind]
  have hbne : (a.status != "active") = true := by
    simp [bne_iff_ne, hna]
  simp [hbne]

/-! ## Claim theorems -/

/-- **C1.** `purchaseAuction(auctionId, buyerId)` returns none if and
only if the auction row is absent or its status is not `'active'`; on
success it sets the auction's status to `'sold'`, `purchasedById` to
the buyer, and `purchasedAt`, with the write guarded by a
`status = 'active'` condition, so any later `purchaseAuction` call on
the same auction returns none and performs no writes. -/
theorem purchaseAuction_c1 (db : DB) (aId : ℕ) (buyer : String) (now : ℕ) :
    ((purchaseAuction db aId buyer now).1 = none ↔
      ∀ a, db.auctions.find? (fun x => x.id == aId) = some a → ¬a.status = "active")
    ∧ ∀ res db2, purchaseAuction db aId buyer now = (some res, db2) →
        res.1.status = "sold" ∧ res.1.purchasedById = some buyer ∧
        res.1.purchasedAt = some now ∧
        ∀ buyer2 now2, purchaseAuction db2 aId buyer2 now2 = (none, db2) := by
  cases hf : db.auctions.find? (fun x => x.id == aId) with
  | none =>
    constructor
    · constructor
      · intro _ a2 ha2
        cases ha2
      · intro _
        rw [purchaseAuction_absent db aId buyer now hf]
    · intro res db2 heq
      rw [purchaseAuction_absent db aId buyer now hf] at heq
      injection heq with h1 h2
      cases h1
  | some a =>
    by_cases ha : a.status = "active"
    · have hsucc := purchaseAuction_success_eq db aId buyer now a hf ha
      constructor
      · constructor
        · intro hnone
          rw [hsucc] at hnone
          simp at hnone
        · intro hall
          exact absurd ha (hall a rfl)
      · intro res db2 heq
        rw [hsucc] at heq
        injection heq with h1 h2
        injection h1 with h1
        subst h1
        subst h2
        refine ⟨rfl, rfl, rfl, fun buyer2 now2 => ?_⟩
        -- after the guarded write, the first row with this id is sold
        have hpa : (a.id == aId && a.status == "active") = true := by
          have hqa := List.find?_some hf
          simp only [Bool.and_eq_true]
          exact ⟨hqa, by simp [ha]⟩
        have hpres : ∀ x : Auction,
            (((if (x.id == aId && x.status == "active") = true
                then soldOf buyer now x else x)).id == aId) = (x.id == aId) := by
          intro x
          by_cases hp : (x.id == aId && x.status == "active") = true <;>
            simp [hp, soldOf]
        have hf2 := find_map_of_pres hf hpres
        rw [if_pos hpa] at hf2
        exact purchaseAuction_not_active _ aId buyer2 now2 (soldOf buyer now a) hf2
          (by simp [soldOf])
    · have hfail := purchaseAuction_not_active db aId buyer now a hf ha
      constructor
      · constructor
        · intro _ a2 ha2
          injection ha2 with ha2
          subst ha2
          exact ha
        · intro _
          rw [hfail]
      · intro res db2 heq
        rw [hfail] at heq
        injection heq with h1 h2
        cases h1

/-- Witness for C1: driver `"D"` buys `auctionA`; the stored auction is
sold with buyer and timestamp, and a later purchase attempt by `"E"`
returns none and leaves the store untouched. -/
theorem purchaseAuction_c1_witness :
    soldAuctionA.status = "sold" ∧ soldAuctionA.purchasedById = some "D" ∧
    soldAuctionA.purchasedAt = some 5 ∧
    purchaseAuction dbASold 1 "E" 7 = (none, dbASold) := by
  have h := (purchaseAuction_c1 dbA 1 "D" 5).2 (soldAuctionA, orderFromA) dbASold (by decide)
  exact ⟨h.1, h.2.1, h.2.2.1, h.2.2.2 "E" 7⟩

/-- **C2.** Every successful `purchaseAuction(auctionId, buyerId)`
creates exactly one new order — copying the auction's route, vehicle,
date, and time-window fields, with `price = instantPrice`,
`assignedDriverId` = buyer, `createdById` = the auction's creator,
`fromAuction = true`, and initial status `'in_progress'` (skipping the
open/assigned/accept states) — and exactly one billing row with
`type = 'order_payment'`, `amount = instantPrice`, `userId` = buyer,
backlinks to the new order and the auction, and `createdById` = the
auction's creator. -/
theorem purchaseAuction_c2 (db : DB) (aId : ℕ) (buyer : String) (now : ℕ) (a : Auction)
    (hfind : db.auctions.find? (fun x => x.id == aId) = some a)
    (hact : a.status = "active") :
    ∃ o b,
      (purchaseAuction db aId buyer now).1 = some (soldOf buyer now a, o)
      ∧ (purchaseAuction db aId buyer now).2.orders = db.orders ++ [o]
      ∧ (purchaseAuction db aId buyer now).2.billings = db.billings ++ [b]
      ∧ o.pickupLocation = a.pickupLocation
      ∧ o.deliveryLocation = a.deliveryLocation
      ∧ o.vehicleBrand = a.vehicleBrand
      ∧ o.vehicleModel = a.vehicleModel
      ∧ o.vehicleYear = a.vehicleYear
      ∧ o.pickupDate = a.pickupDate
      ∧ o.deliveryDate = a.deliveryDate
      ∧ o.pickupTimeFrom = a.pickupTimeFrom
      ∧ o.pickupTimeTo = a.pickupTimeTo
      ∧ o.deliveryTimeFrom = a.deliveryTimeFrom
      ∧ o.deliveryTimeTo = a.deliveryTimeTo
      ∧ o.price = a.instantPrice
      ∧ o.assignedDriverId = some buyer
      ∧ o.createdById = a.createdById
      ∧ o.fromAuction = "true"
      ∧ o.status = "in_progress"
      ∧ ¬ o.status = "open"
      ∧ ¬ o.status = "assigned"
      ∧ b.type = "order_payment"
      ∧ b.amount = a.instantPrice
      ∧ b.userId = buyer
      ∧ b.orderId = some o.id
      ∧ b.auctionId = some a.id
      ∧ b.createdById = a.createdById := by
  refine ⟨purchasedOrder a buyer db.nextId now,
          purchaseBilling a buyer db.nextId (db.nextId + 1) now, ?_⟩
  rw [purchaseAuction_success_eq db aId buyer now a hfind hact]
  refine ⟨rfl, rfl, rfl, rfl, rfl, rfl, rfl, rfl, rfl, rfl, rfl, rfl, rfl, rfl, rfl,
    rfl, rfl, rfl, rfl, ?_, ?_, rfl, rfl, rfl, rfl, rfl, rfl⟩
  · exact fun hh => (by decide : ¬ ("in_progress" : String) = "open") hh
  · exact fun hh => (by decide : ¬ ("in_progress" : String) = "assigned") hh

/-- Witness for C2: the purchase of `auctionA` by driver `"D"` creates
one order and one billing row with the stated fields. -/
theorem purchaseAuction_c2_witness :
    ∃ o b,
      (purchaseAuction dbA 1 "D" 5).1 = some (soldOf "D" 5 auctionA, o)
      ∧ (purchaseAuction dbA 1 "D" 5).2.orders = dbA.orders ++ [o]
      ∧ (purchaseAuction dbA 1 "D" 5).2.billings = dbA.billings ++ [b]
      ∧ o.price = auctionA.instantPrice
      ∧ o.assignedDriverId = some "D"
      ∧ o.fromAuction = "true"
      ∧ o.status = "in_progress"
      ∧ b.type = "order_payment"
      ∧ b.amount = auctionA.instantPrice
      ∧ b.userId = "D"
      ∧ b.orderId = some o.id
      ∧ b.auctionId = some auctionA.id := by
  obtain ⟨o, b, h1, h2, h3, h4, h5, h6, h7, h8, h9, h10, h11, h12, h13, h14, h15, h16,
    h17, h18, h19, h20, h21, h22, h23, h24, h25, h26, h27⟩ :=
    purchaseAuction_c2 dbA 1 "D" 5 auctionA (by decide) (by decide)
  exact ⟨o, b, h1, h2, h3, h15, h16, h18, h19, h22, h23, h24, h25, h26⟩

/-- **C3** (refuted by the code): cancelling an already-cancelled
auction-sourced order again, with an acting driver, inserts a second
`cancellation_fee` billing row — `updateOrderStatus` has no guard
against an order that is already cancelled, so the fee double-fires. -/
theorem updateOrderStatus_c3_doubleCharge :
    ((updateOrderStatus dbFA 1 "cancelled" (some "D") 10).2.orders.map Order.status
      = ["cancelled"])
    ∧ feeCount ((updateOrderStatus dbFA 1 "cancelled" (some "D") 10).2) 1 = 1
    ∧ feeCount ((updateOrderStatus
        ((updateOrderStatus dbFA 1 "cancelled" (some "D") 10).2)
        1 "cancelled" (some "D") 11).2) 1 = 2 := by decide

/-- **C4** (refuted by the code): for the representable price
`"0.35"`, the fee the code computes —
`(parseFloat("0.35") * 0.1).toFixed(2)` over binary64 floats — is
`"0.03"`, while 10% computed on the decimal representation and rounded
to 2 fractional digits is `"0.04"`. -/
theorem updateOrderStatus_c4_feeFloat :
    orderP35.price = "0.35"
    ∧ ((updateOrderStatus dbP35 1 "cancelled" (some "D") 10).2.billings.map Billing.amount
        = ["0.03"])
    ∧ specTenPercentRounded "0.35" = some "0.04" := by decide

/-- **C5** (refuted by the code): `rejectOrder` checks only the order
id and the assigned driver, not `fromAuction`; the buyer of
`auctionA`, whose purchase spawned `orderFromA` with
`fromAuction = "true"` and themselves as driver, can reject that order
back to `'open'` with `assignedDriverId` cleared. -/
theorem rejectOrder_c5_auctionOrderRejected :
    purchaseAuction dbA 1 "D" 5 = (some (soldAuctionA, orderFromA), dbASold)
    ∧ orderFromA.fromAuction = "true"
    ∧ orderFromA.assignedDriverId = some "D"
    ∧ (rejectOrder dbASold 2 "D" 6).1 =
        some { orderFromA with assignedDriverId := none, status := "open", updatedAt := 6 }
    ∧ ((rejectOrder dbASold 2 "D" 6).2.orders.map Order.assignedDriverId) = [none] := by
  decide

/-- **C6.** `updateOrderStatus(orderId, newStatus, actingDriverId?)`
returns none and writes nothing when no order with that id exists;
otherwise it applies the requested status unconditionally (any current
status, any requested status, no transition-table validation), inserts
the fee billing row with `createdById` = the order's original creator
exactly when the new status is `'cancelled'`, `fromAuction` is true,
and a (non-empty) driver id is supplied, and returns the updated
order. -/
theorem updateOrderStatus_c6 (db : DB) (oid : ℕ) (st : String)
    (drv : Option String) (now : ℕ) :
    (db.orders.find? (fun x => x.id == oid) = none →
      updateOrderStatus db oid st drv now = (none, db))
    ∧ (∀ o, db.orders.find? (fun x => x.id == oid) = some o →
        (st == "cancelled" && o.fromAuction == "true" && jsTruthy drv) = false →
        updateOrderStatus db oid st drv now =
          (some { o with status := st, updatedAt := now },
           { db with orders := db.orders.map (fun x =>
              if x.id == oid then { x with status := st, updatedAt := now } else x) }))
    ∧ (∀ o d, db.orders.find? (fun x => x.id == oid) = some o →
        st = "cancelled" → o.fromAuction = "true" → drv = some d → ¬ d = "" →
        updateOrderStatus db oid st drv now =
          (some { o with status := st, updatedAt := now },
           { db with
              orders := db.orders.map (fun x =>
                if x.id == oid then { x with status := st, updatedAt := now } else x)
              billings := db.billings ++ [cancellationBilling o d db.nextId now]
              nextId := db.nextId + 1 })) := by
  refine ⟨fun habs => ?_, fun o hfind hcond => ?_, fun o d hfind hst hfa hdrv hd => ?_⟩
  · unfold updateOrderStatus
    rw [habs]
  · rw [updateOrderStatus_found_eq db oid st drv now o hfind, if_neg]
    simp [hcond]
  · subst hst
    subst hdrv
    rw [updateOrderStatus_found_eq db oid "cancelled" (some d) now o hfind, if_pos]
    · rfl
    · simp [hfa, jsTruthy, hd]

/-- Witness for C6: cancelling the auction-sourced `orderFA` with
acting driver `"D"` rewrites the status and appends the fee row. -/
theorem updateOrderStatus_c6_witness :
    updateOrderStatus dbFA 1 "cancelled" (some "D") 10 =
      (some { orderFA with status := "cancelled", updatedAt := 10 },
       { dbFA with
          orders := dbFA.orders.map (fun x =>
            if x.id == 1 then { x with status := "cancelled", updatedAt := 10 } else x)
          billings := dbFA.billings ++ [cancellationBilling orderFA "D" dbFA.nextId 10]
          nextId := dbFA.nextId + 1 }) :=
  (updateOrderStatus_c6 dbFA 1 "cancelled" (some "D") 10).2.2 orderFA "D"
    (by decide) rfl (by decide) rfl (by decide)

/-- **C7.** A `fromAuction = false` order in state `'assigned'` with
assigned driver `D`: `rejectOrder(orderId, D)` returns it to `'open'`
with `assignedDriverId = null`, while `acceptOrder(orderId, D)`
transitions it to `'in_progress'` keeping `assignedDriverId = D`. -/
theorem acceptReject_c7 (db : DB) (oid : ℕ) (d : String) (now : ℕ) (o : Order)
    (hfind : db.orders.find? (fun x => x.id == oid) = some o)
    (hfa : o.fromAuction = "false") (hst : o.status = "assigned")
    (hdrv : o.assignedDriverId = some d) :
    (rejectOrder db oid d now).1 =
      some { o with assignedDriverId := none, status := "open", updatedAt := now }
    ∧ (acceptOrder db oid d now).1 =
      some { o with status := "in_progress", updatedAt := now }
    ∧ ({ o with status := "in_progress", updatedAt := now } : Order).assignedDriverId
      = some d := by
  have hqo := List.find?_some hfind
  have hpa : (o.id == oid && o.assignedDriverId == some d) = true := by
    simp only [Bool.and_eq_true]
    exact ⟨hqo, by simp [hdrv]⟩
  have hhead :
      (db.orders.filter (fun x => x.id == oid && x.assignedDriverId == some d)).head?
        = some o :=
    head_filter_of_find hfind
      (fun x hx => by
        simp only [Bool.and_eq_true] at hx
        exact hx.1)
      hpa
  refine ⟨?_, ?_, hdrv⟩
  · unfold rejectOrder updateWhere
    simp only [List.head?_map, hhead, Option.map_some']
  · unfold acceptOrder updateWhere
    simp only [List.head?_map, hhead, Option.map_some']

/-- Witness for C7: the manual assigned order `orderManual` is rejected
back to open with the driver cleared, or accepted to in_progress with
the driver kept. -/
theorem acceptReject_c7_witness :
    (rejectOrder dbManual 1 "D" 8).1 =
      some { orderManual with assignedDriverId := none, status := "open", updatedAt := 8 }
    ∧ (acceptOrder dbManual 1 "D" 8).1 =
      some { orderManual with status := "in_progress", updatedAt := 8 }
    ∧ ({ orderManual with status := "in_progress", updatedAt := 8 } : Order).assignedDriverId
      = some "D" :=
  acceptReject_c7 dbManual 1 "D" 8 orderManual (by decide) (by decide) (by decide) (by decide)

/-- **C8** (refuted by the code): a pickup handover on an assigned
order sets the status to `'picked_up'`, which is not `'in_progress'`
and is not even a value of the `order_status` enum; a delivery
handover sets `'delivered'`. -/
theorem updateOrderAfterHandover_c8_pickupStatus :
    orderManual.status = "assigned"
    ∧ ((updateOrderAfterHandover dbManual 1 "pickup" 7).1.map Order.status)
        = some "picked_up"
    ∧ ¬ ("picked_up" ∈ orderStatusValues)
    ∧ ¬ ((updateOrderAfterHandover dbManual 1 "pickup" 7).1.map Order.status)
        = some "in_progress"
    ∧ ((updateOrderAfterHandover dbManual 1 "delivery" 7).1.map Order.status)
        = some "delivered" := by
  decide

/-- **C9.** Every order returned by `getCompletedOrdersForBilling` has
status `'completed'` and no existing `completion_payment` billing row
references it. -/
theorem getCompletedOrdersForBilling_c9 (db : DB) (o : Order)
    (h : o ∈ getCompletedOrdersForBilling db) :
    o.status = "completed"
    ∧ ∀ b2, b2 ∈ db.billings →
        ¬(b2.orderId = some o.id ∧ b2.type = "completion_payment") := by
  unfold getCompletedOrdersForBilling at h
  rw [List.mem_filter] at h
  obtain ⟨h1, h2⟩ := h
  rw [List.mem_filter] at h1
  obtain ⟨_, hstatus⟩ := h1
  constructor
  · simpa using hstatus
  · intro b2 hb2 hcontra
    obtain ⟨hbo, hbt⟩ := hcontra
    have hmem : b2 ∈ db.billings.filter
        (fun b3 => b3.orderId == some o.id && b3.type == "completion_payment") :=
      List.mem_filter.mpr ⟨hb2, by simp [hbo, hbt]⟩
    have hnil : db.billings.filter
        (fun b3 => b3.orderId == some o.id && b3.type == "completion_payment") = [] := by
      simpa using h2
    rw [hnil] at hmem
    simp at hmem

/-- Witness for C9: `orderDone` is returned for billing in `dbDone`,
is completed, and no completion billing row references it. -/
theorem getCompletedOrdersForBilling_c9_witness :
    orderDone.status = "completed"
    ∧ ∀ b2, b2 ∈ dbDone.billings →
        ¬(b2.orderId = some orderDone.id ∧ b2.type = "completion_payment") :=
  getCompletedOrdersForBilling_c9 dbDone orderDone (by decide)

/-- **C10.** `updateBillingStatus(billingId, status, adminNotes?,
newAmount?)` modifies only `status`, `updatedAt`, and — when the
corresponding argument is a truthy (non-empty) string — `adminNotes`
and `amount`; `originalAmount`, `approvedBy`, and `approvedAt` are
never written, and an empty-string argument leaves its field
unchanged. -/
theorem updateBillingStatus_c10 (db : DB) (bid : ℕ) (st : String)
    (notes amt : Option String) (now : ℕ) (b : Billing)
    (hfind : db.billings.find? (fun x => x.id == bid) = some b) :
    (updateBillingStatus db bid st notes amt now).1 = some (billingUpd st notes amt now b)
    ∧ (updateBillingStatus db bid st notes amt now).2 =
        { db with billings := db.billings.map (fun x =>
            if x.id == bid then billingUpd st notes amt now x else x) }
    ∧ billingUpd st notes amt now b =
        { b with status := st, updatedAt := now,
                 adminNotes := if jsTruthy notes = true then notes else b.adminNotes,
                 amount := if jsTruthy amt = true then amt.getD b.amount else b.amount }
    ∧ jsTruthy none = false
    ∧ jsTruthy (some "") = false
    ∧ (∀ s, ¬ s = "" → jsTruthy (some s) = true) := by
  have hqo := List.find?_some hfind
  have hhead :
      (db.billings.filter (fun x => x.id == bid)).head? = some b :=
    head_filter_of_find hfind (fun x hx => hx) hqo
  refine ⟨?_, ?_, ?_, rfl, rfl, fun s hs => ?_⟩
  · unfold updateBillingStatus updateWhere
    simp only [List.head?_map, hhead, Option.map_some']
  · unfold updateBillingStatus updateWhere
    rfl
  · unfold billingUpd
    by_cases h1 : jsTruthy notes = true <;> by_cases h2 : jsTruthy amt = true <;>
      simp [h1, h2]
  · simp [jsTruthy, hs]

/-- Witness for C10: approving `billingB` with a note and a new amount
writes exactly the stated fields. -/
theorem updateBillingStatus_c10_witness :
    (updateBillingStatus dbBill 6 "approved" (some "ok") (some "60.00") 80).1
      = some (billingUpd "approved" (some "ok") (some "60.00") 80 billingB)
    ∧ (updateBillingStatus dbBill 6 "approved" (some "ok") (some "60.00") 80).2 =
        { dbBill with billings := dbBill.billings.map (fun x =>
            if x.id == 6 then billingUpd "approved" (some "ok") (some "60.00") 80 x else x) }
    ∧ billingUpd "approved" (some "ok") (some "60.00") 80 billingB =
        { billingB with status := "approved", updatedAt := 80,
                        adminNotes := if jsTruthy (some "ok") = true then some "ok"
                                      else billingB.adminNotes,
                        amount := if jsTruthy (some "60.00") = true
                                  then (some "60.00").getD billingB.amount
                                  else billingB.amount }
    ∧ jsTruthy none = false
    ∧ jsTruthy (some "") = false
    ∧ (∀ s, ¬ s = "" → jsTruthy (some s) = true) :=
  updateBillingStatus_c10 dbBill 6 "approved" (some "ok") (some "60.00") 80 billingB
    (by decide)

end EveeLog
